import Mathlib

/-!
Verification development for the `sphinx-lua-ls` repository.

This file gives a shallow embedding, in Lean 4, of the core algorithms of the
repository — the signature micro-scanners of `sphinx_lua_ls/utils.py`, the
object model and merge engine of `sphinx_lua_ls/objtree.py`, the docstring
annotation parser of the same module, and the member-selection filter of
`sphinx_lua_ls/autodoc.py` — together with theorems settling the specification
claims about them.

Conventions used throughout the embedding:
- Python strings are modelled as `List Char` in the scanning cores, with
  `String` wrappers for readability.  Character classes (`\s`, `\w`) are
  modelled over their ASCII content.
- Python `None` becomes `Option`, Python truthiness of optional strings
  (`None` and `""` both falsy) is `pyTruthy`.
- Python exceptions (the `TypeError` that `sorted` raises when comparing
  `None` with an `int` line number) make the affected operation return
  `Option`, with `none` for the raised exception.
- Python `dict`s (which preserve insertion order) are association lists
  whose update-in-place keeps the position of an existing key.
-/

/-! ## Python string helpers -/

/-- ASCII content of Python's `\s` / `str.strip` whitespace class. -/
def isPySpace (c : Char) : Bool :=
  c = ' ' || c = '\t' || c = '\n' || c = '\r' || c = '\x0b' || c = '\x0c'

/-- ASCII content of Python's `\w` word-character class. -/
def isPyWord (c : Char) : Bool :=
  c.isAlphanum || c = '_'

/-- Python `str.strip()` on a character list. -/
def pyStripChars (l : List Char) : List Char :=
  ((l.dropWhile isPySpace).reverse.dropWhile isPySpace).reverse

/-- Python `str.strip()`. -/
def pyStrip (s : String) : String :=
  String.mk (pyStripChars s.data)

/-- Python `str.lstrip()` on a character list. -/
def pyLstripChars (l : List Char) : List Char :=
  l.dropWhile isPySpace

/-- Python truthiness of an optional string: `None` and `""` are falsy. -/
def pyTruthy : Option String → Bool
  | none => false
  | some s => !s.isEmpty

/-- Python `a or b` on optional strings (`None` and `""` are falsy). -/
def pyOrStr (a b : Option String) : Option String :=
  if pyTruthy a then a else b

/-- Python `a or b` where the payload of `some` is always truthy
(`Visibility` enum members, `pathlib.Path` objects). -/
def pyOrOpt {α : Type} (a b : Option α) : Option α :=
  match a with
  | some x => some x
  | none => b

/-! ## `utils.py`: nesting- and string-aware separator scanners

`separate_paren_prefix` and `separate_sig` scan a signature character by
character with a state of (bracket `depth`, `in_str`, current quote `str_c`,
`esc`).  The embedding mirrors each `elif` chain of the source exactly.
-/

/-- Characters that increase the nesting depth (`"([{<"` in the source). -/
def isOpenBracket (c : Char) : Bool :=
  c = '(' || c = '[' || c = '\x7b' || c = '<'

/-- Characters that decrease the nesting depth (`")]}>"` in the source). -/
def isCloseBracket (c : Char) : Bool :=
  c = ')' || c = ']' || c = '\x7d' || c = '>'

/-- String-literal quote characters (`"'\"\x60"` in the source). -/
def isQuote (c : Char) : Bool :=
  c = '\'' || c = '"' || c = '\x60'

/-- Scanner state of `separate_paren_prefix` / `separate_sig`: nesting depth,
whether we are inside a string literal, its quote character, and whether the
previous character was a backslash escape. -/
structure ScanSt where
  depth : Int
  in_str : Bool
  str_c : Char
  esc : Bool
deriving DecidableEq

/-- Initial scanner state (`depth = 0`, not in a string). -/
def scanInit : ScanSt :=
  ⟨0, false, ' ', false⟩

/-- Prepend a character to the group component of a scanner result. -/
def consCar (c : Char) (r : Option (List Char × List Char)) :
    Option (List Char × List Char) :=
  r.map (fun p => (c :: p.1, p.2))

/-- The character loop of `separate_paren_prefix` (utils.py lines 114-134):
scan for the closing character at depth zero, skipping over nested brackets
and string literals; return the group contents and the rest, or `none` when
no closing character is found. -/
def sppScan (close : Char) (st : ScanSt) : List Char → Option (List Char × List Char)
  | [] => none
  | c :: cs =>
    if st.in_str then
      if st.esc then
        consCar c (sppScan close { st with esc := false } cs)
      else if c = st.str_c then
        consCar c (sppScan close { st with in_str := false } cs)
      else if c = '\\' then
        consCar c (sppScan close { st with esc := true } cs)
      else
        consCar c (sppScan close st cs)
    else if isOpenBracket c then
      consCar c (sppScan close { st with depth := st.depth + 1 } cs)
    else if st.depth = 0 && c = close then
      some ([], cs)
    else if isCloseBracket c then
      consCar c (sppScan close { st with depth := max (st.depth - 1) 0 } cs)
    else if isQuote c then
      consCar c (sppScan close { st with in_str := true, str_c := c } cs)
    else
      consCar c (sppScan close st cs)

/-- `separate_paren_prefix(sig, parens)` on character lists: if the string
starts with the opening character, split out the bracketed group (stripped)
and the stripped remainder; when no matching close is found return the whole
remaining text as the group with an empty suffix; otherwise return an empty
group and the stripped input. -/
def separateParenPrefixCh (openC closeC : Char) (sig : List Char) :
    List Char × List Char :=
  match sig with
  | [] => ([], pyStripChars [])
  | c :: rest =>
    if c = openC then
      match sppScan closeC scanInit rest with
      | some (g, r) => (pyStripChars g, pyStripChars r)
      | none => (pyStripChars rest, [])
    else
      ([], pyStripChars (c :: rest))

/-- `separate_paren_prefix` with the default parentheses `("(", ")")`. -/
def separateParenPrefix (sig : String) : String × String :=
  let p := separateParenPrefixCh '(' ')' sig.data
  (String.mk p.1, String.mk p.2)

/-- Keep a separated segment as `separate_sig` does: strip it when `strip`
is set, and drop it when it is empty or whitespace-only
(`if elem and not elem.isspace()`). -/
def ssKeep (strip : Bool) (cur : List Char) : List (List Char) :=
  let e := if strip then pyStripChars cur else cur
  if e.any (fun c => !isPySpace c) then [e] else []

/-- The character loop of `separate_sig` (utils.py lines 153-184): split on
the separator at depth zero, ignoring separators inside brackets and string
literals; an unmatched closing bracket clamps the depth at zero
(`depth = max(depth - 1, 0)`), and an unterminated string literal consumes
the rest of the input. -/
def ssScan (sep : Char) (strip : Bool) (st : ScanSt) (cur : List Char) :
    List Char → List (List Char)
  | [] => ssKeep strip cur
  | c :: cs =>
    if st.in_str then
      if st.esc then
        ssScan sep strip { st with esc := false } (cur ++ [c]) cs
      else if c = st.str_c then
        ssScan sep strip { st with in_str := false } (cur ++ [c]) cs
      else if c = '\\' then
        ssScan sep strip { st with esc := true } (cur ++ [c]) cs
      else
        ssScan sep strip st (cur ++ [c]) cs
    else if isOpenBracket c then
      ssScan sep strip { st with depth := st.depth + 1 } (cur ++ [c]) cs
    else if isCloseBracket c then
      ssScan sep strip { st with depth := max (st.depth - 1) 0 } (cur ++ [c]) cs
    else if isQuote c then
      ssScan sep strip { st with in_str := true, str_c := c } (cur ++ [c]) cs
    else if st.depth = 0 && c = sep then
      ssKeep strip cur ++ ssScan sep strip st [] cs
    else
      ssScan sep strip st (cur ++ [c]) cs

/-- `separate_sig(sig, sep, strip)` on character lists. -/
def separateSigCh (sep : Char) (strip : Bool) (sig : List Char) :
    List (List Char) :=
  ssScan sep strip scanInit [] sig

/-- `separate_sig(sig, sep, strip)`. -/
def separateSig (sig : String) (sep : Char) (strip : Bool) : List String :=
  (separateSigCh sep strip sig.data).map String.mk

/-- The test of `_PARAM_NAME_RE` (`^\s*[\w-]+\s*$`): after stripping
whitespace, the segment is nonempty and made of word characters and
hyphens only. -/
def paramNameMatch (s : List Char) : Bool :=
  let t := pyStripChars s
  !t.isEmpty && t.all (fun c => isPyWord c || c = '-')

/-- Python `":".join(elems)` on character lists. -/
def joinColon : List (List Char) → List Char
  | [] => []
  | [x] => x
  | x :: y :: xs => x ++ ':' :: joinColon (y :: xs)

/-- `parse_types(sig, parsingFunctionParams)` on character lists (utils.py
lines 187-208): split the comma-separated segments, split each on colons,
and classify each segment as a bare type (empty name) or a name-type pair
depending on the bare-identifier test of its first colon-free piece. -/
def parseTypesCh (parsingFunctionParams : Bool) (sig : List Char) :
    List (List Char × List Char) :=
  (separateSigCh ',' true sig).filterMap (fun elem =>
    match separateSigCh ':' false elem with
    | [] => none
    | e0 :: restEs =>
      if (restEs.isEmpty && !parsingFunctionParams) || !paramNameMatch e0 then
        some ([], pyStripChars (joinColon (e0 :: restEs)))
      else
        some (pyStripChars e0, pyStripChars (joinColon restEs)))

/-- `parse_types(sig, parsingFunctionParams)`. -/
def parseTypes (sig : String) (parsingFunctionParams : Bool) :
    List (String × String) :=
  (parseTypesCh parsingFunctionParams sig.data).map
    (fun p => (String.mk p.1, String.mk p.2))

/-! ## `objtree.py`: the object model

`Object` and its subclasses (`Data`, `Table`, `Function`, `Class`, `Alias`,
`Enum`) are modelled as a single recursive type carrying a `tag` for the
Python class and the fields read or written by the algorithms under study.
Subclass payload fields that no modelled operation touches (`params`,
`returns`, `generics`, `overloads`, `type`, `lit`, `constructor`,
`require_type`, `require_function`, `require_separator`) are omitted;
`Parser.merge_objects` keeps the base object's payload unchanged.
`using` is renamed `usings` and file paths are plain strings.
-/

/-- The Python class of an object record (`Object` and its subclasses). -/
inductive Tag where
  | obj
  | data
  | table
  | func
  | cls
  | alias
  | enum
deriving DecidableEq

/-- The `Kind` enum of `objtree.py` (`module`, `table`, `data`, `function`,
`class`, `alias`, `enum`). -/
inductive Kind where
  | module
  | table
  | data
  | func
  | cls
  | alias
  | enum
deriving DecidableEq

/-- The `Visibility` enum of `objtree.py`. -/
inductive Visibility where
  | Public
  | Protected
  | Private
  | Package
deriving DecidableEq

/-- The scalar fields of an object record (dataclass fields of
`DocstringMixin` and `Object`, plus the `bases` payload of `Class`). -/
structure ObjData where
  tag : Tag
  docstring : Option String
  needs_cleanup : Bool
  inferred_options : List (String × String)
  inferred_doctype : Option String
  is_deprecated : Bool
  deprecation_reason : Option String
  is_nodiscard : Bool
  nodiscard_reason : Option String
  is_async : Bool
  visibility : Option Visibility
  see : List String
  files : List String
  docstring_file : Option String
  is_foreign : Bool
  line : Option Int
  usings : List String
  is_toplevel : Bool
  bases : List String
deriving DecidableEq

/-- An object record: scalar fields plus the insertion-ordered `children`
mapping (Python `dict[str, Object]`, modelled as an association list with
distinct keys). -/
inductive Object where
  | mk (objData : ObjData) (children : List (String × Object))

/-- Scalar fields of an object. -/
def Object.objData : Object → ObjData
  | .mk d _ => d

/-- Children mapping of an object. -/
def Object.children : Object → List (String × Object)
  | .mk _ c => c

/-- The `priority` class variable: `Object` 0; `Data`/`Table` 1;
`Function`/`Class`/`Alias`/`Enum` 2. -/
def tagPriority : Tag → Int
  | .obj => 0
  | .data => 1
  | .table => 1
  | .func => 2
  | .cls => 2
  | .alias => 2
  | .enum => 2

/-- Python set union `a.update(b)` on file sets modelled as lists: keep `a`,
append the members of `b` not already present. -/
def pyUnion (a b : List String) : List String :=
  b.foldl (fun acc e => if acc.contains e then acc else acc ++ [e]) a

/-- Python dict assignment `d[k] = v` for an existing key: replace the value
in place, keeping the key's position. -/
def setEntry (l : List (String × String)) (k v : String) : List (String × String) :=
  match l with
  | [] => []
  | (k', v') :: rest =>
    if k' = k then (k', v) :: rest else (k', v') :: setEntry rest k v

/-- Python `a.update(b)` on ordered dicts: existing keys keep their position
and take `b`'s value, new keys are appended in `b`'s order. -/
def dictUpdate (a b : List (String × String)) : List (String × String) :=
  b.foldl
    (fun acc kv =>
      if (List.lookup kv.1 acc).isSome then setEntry acc kv.1 kv.2
      else acc ++ [kv])
    a

/-! ## `Parser.merge_objects` (objtree.py lines 738-783)

The sort key is `(-x.is_foreign, -x.priority, x.line)`; Python compares the
key tuples lexicographically and raises `TypeError` when it reaches a `None`
line on one side and an `int` on the other, which the embedding models by
returning `none`.  The merge of children recurses through `add_child`; a
fuel parameter bounds the recursion depth, with `none` on exhaustion.
-/

/-- Python `<` on the third key component (`x.line`), reached only when the
first two components tie: `None` vs `None` compares equal (so not less),
`int` vs `int` compares numerically, and a mixed pair raises `TypeError`
(modelled as `none`). -/
def optLineLt : Option Int → Option Int → Option Bool
  | none, none => some false
  | some x, some y => some (decide (x < y))
  | _, _ => none

/-- Python `<` on sort-key tuples: lexicographic, moving to the next
component on equality. -/
def tupleLt (k l : Int × Int × Option Int) : Option Bool :=
  if k.1 ≠ l.1 then some (decide (k.1 < l.1))
  else if k.2.1 ≠ l.2.1 then some (decide (k.2.1 < l.2.1))
  else optLineLt k.2.2 l.2.2

/-- The sort key of `merge_objects`:
`(-x.is_foreign, -x.priority, x.line)` (Python booleans negate to `-1`/`0`). -/
def sortKey (o : Object) : Int × Int × Option Int :=
  ((if o.objData.is_foreign then -1 else 0), -(tagPriority o.objData.tag),
    o.objData.line)

/-- `sorted([a, b], key=...)`: the two-element sort compares the second key
against the first and swaps exactly when it is strictly smaller (stable for
ties); `none` is the `TypeError` of an incomparable pair. -/
def sortPair (a b : Object) : Option (Object × Object) :=
  match tupleLt (sortKey b) (sortKey a) with
  | none => none
  | some true => some (b, a)
  | some false => some (a, b)

/-- Python `len` of an optional docstring (only used under a truthiness
guard). -/
def optStrLen (s : Option String) : Nat :=
  (s.getD "").length

/-- The field updates of `merge_objects` (objtree.py lines 748-772) applied
to the scalar fields of the sorted pair: flag fields are OR-ed,
first-non-null wins for scalars, list/set/dict fields are unioned, and the
docstring is replaced by the loser's when the winner has none or when the
loser's is strictly longer and the loser is not foreign. -/
def mergeData (a b : ObjData) : ObjData :=
  let base : ObjData :=
    { a with
      is_deprecated := a.is_deprecated || b.is_deprecated
      deprecation_reason := pyOrStr a.deprecation_reason b.deprecation_reason
      is_nodiscard := a.is_nodiscard || b.is_nodiscard
      nodiscard_reason := pyOrStr a.nodiscard_reason b.nodiscard_reason
      is_async := a.is_async || b.is_async
      visibility := pyOrOpt a.visibility b.visibility
      see := a.see ++ b.see
      files := pyUnion a.files b.files
      docstring_file := pyOrOpt a.docstring_file b.docstring_file
      is_foreign := a.is_foreign && b.is_foreign
      line := pyOrOpt a.line b.line
      inferred_options := dictUpdate a.inferred_options b.inferred_options
      inferred_doctype := pyOrStr a.inferred_doctype b.inferred_doctype
      usings := a.usings ++ b.usings }
  if !pyTruthy a.docstring then
    { base with
      docstring := b.docstring
      docstring_file := b.docstring_file
      needs_cleanup := b.needs_cleanup }
  else if pyTruthy b.docstring && decide (optStrLen a.docstring < optStrLen b.docstring)
      && !b.is_foreign then
    { base with
      docstring := b.docstring
      docstring_file := b.docstring_file
      needs_cleanup := b.needs_cleanup }
  else
    base

/-- Python dict assignment `o.children[name] = v` for an existing key. -/
def setChild (ch : List (String × Object)) (name : String) (v : Object) :
    List (String × Object) :=
  match ch with
  | [] => []
  | (n, o) :: rest =>
    if n = name then (n, v) :: rest else (n, o) :: setChild rest name v

mutual

/-- `Parser.merge_objects(a, b)`: order the pair by the sort key, then merge
the loser into the winner (children via `add_child`, scalar fields via
`mergeData`).  `none` models the `TypeError` of an incomparable sort key or
fuel exhaustion; every call burns one unit of fuel, so any fuel above the
length of the longest call chain reproduces the Python recursion (which
always terminates on the finite trees the parser builds, see `objFuel`). -/
def mergeObjects : Nat → Object → Object → Option Object
  | 0, _, _ => none
  | Nat.succ fuel, a, b =>
    match sortPair a b with
    | none => none
    | some (w, l) => mergeSorted fuel w l

/-- The body of `merge_objects` after the sort: `a` is the base (winner). -/
def mergeSorted : Nat → Object → Object → Option Object
  | 0, _, _ => none
  | Nat.succ fuel, a, b =>
    match addChildren fuel a.children b.children with
    | none => none
    | some ch => some (Object.mk (mergeData a.objData b.objData) ch)

/-- The loop `for name, child in b.children.items(): self.add_child(a, name, child)`. -/
def addChildren : Nat → List (String × Object) → List (String × Object) →
    Option (List (String × Object))
  | 0, _, _ => none
  | Nat.succ _, ach, [] => some ach
  | Nat.succ fuel, ach, (name, child) :: rest =>
    match addChild1 fuel ach name child with
    | none => none
    | some ach' => addChildren fuel ach' rest

/-- `Parser.add_child(o, name, child)`: insert the child, merging with an
existing child of the same name via `merge_objects`. -/
def addChild1 : Nat → List (String × Object) → String → Object →
    Option (List (String × Object))
  | 0, _, _, _ => none
  | Nat.succ fuel, ch, name, child =>
    match List.lookup name ch with
    | none => some (ch ++ [(name, child)])
    | some ex => (mergeObjects fuel ex child).map (fun m => setChild ch name m)

end

/-- Modelled from the spec: the pair ordering claimed in §4.2 step 1 —
"foreign status ascending (non-foreign first), then priority descending,
then source-line ascending" — as a sort key for the same stable two-element
sort.  Used only to compare the claimed ordering with the implemented one. -/
def specSortKey (o : Object) : Int × Int × Option Int :=
  ((if o.objData.is_foreign then 1 else 0), -(tagPriority o.objData.tag),
    o.objData.line)

/-- Modelled from the spec: `merge_objects` as described by the claim — the
pair ordered with the non-foreign record first, the first element becoming
the base.  The merge body after ordering is the implemented one. -/
def specMergeObjects : Nat → Object → Object → Option Object
  | 0, _, _ => none
  | Nat.succ fuel, a, b =>
    match tupleLt (specSortKey b) (specSortKey a) with
    | none => none
    | some true => mergeSorted fuel b a
    | some false => mergeSorted fuel a b

mutual

/-- Structural equality of object records (Python compares these
identity-based `eq=False` dataclasses only through `base != obj` in
`find_all_bases`; structural equality is the pure-model counterpart). -/
def objBEq : Object → Object → Bool
  | .mk d1 c1, .mk d2 c2 => d1 == d2 && chBEq c1 c2

def chBEq : List (String × Object) → List (String × Object) → Bool
  | [], [] => true
  | (n1, o1) :: r1, (n2, o2) :: r2 => n1 == n2 && objBEq o1 o2 && chBEq r1 r2
  | _, _ => false

end

/-- Strict comparison of line numbers as the sort key's third component
orders them in a successful comparison: two `int`s numerically; a pair
involving `None` is never strictly smaller (equal `None`s tie, and a mixed
pair raises before any order is produced). -/
def lineLtB : Option Int → Option Int → Bool
  | some x, some y => decide (x < y)
  | _, _ => false

/-- The ordering `merge_objects` actually implements, stated directly: `b`
strictly precedes `a` when `b` is foreign and `a` is not (foreign status
descending), or foreign status ties and `b` has the higher priority
(priority descending), or both tie and `b` has the smaller line number
(line ascending).  The stable sort swaps the pair exactly in this case. -/
def codeSwap (a b : Object) : Bool :=
  (b.objData.is_foreign && !a.objData.is_foreign)
    || ((b.objData.is_foreign == a.objData.is_foreign)
      && ((decide (tagPriority b.objData.tag > tagPriority a.objData.tag))
        || ((tagPriority b.objData.tag == tagPriority a.objData.tag)
          && lineLtB b.objData.line a.objData.line)))

/-- Distinctness of a key list (the Python `dict` key invariant). -/
def listNodup : List String → Bool
  | [] => true
  | x :: r => !r.contains x && listNodup r

mutual

/-- Well-formedness of an object as the Python runtime guarantees it: the
children mapping of every record has distinct keys. -/
def objWF : Object → Bool
  | .mk _ ch => listNodup (ch.map Prod.fst) && chWF ch

def chWF : List (String × Object) → Bool
  | [] => true
  | (_, o) :: r => objWF o && chWF r

end

mutual

/-- Fuel needed by `mergeObjects o o`: a bound on the longest call chain of
the self-merge of `o` (two calls to enter the merge body, then for each
child one `addChildren` step, one `addChild1` step and the recursive
self-merge of the child). -/
def objFuel : Object → Nat
  | .mk _ ch => 2 + chFuel ch

/-- Fuel needed by `addChildren` when re-adding the listed children to a
record that already holds them. -/
def chFuel : List (String × Object) → Nat
  | [] => 1
  | (_, o) :: r => 1 + max (chFuel r) (1 + objFuel o)

end

/-! ## `Object.find` and `Object.find_all_bases` (objtree.py lines 333-414) -/

/-- Python `str.split(sep)` for a one-character separator: no merging of
adjacent separators, and the empty string yields one empty piece. -/
def splitOnChar (sep : Char) : List Char → List (List Char)
  | [] => [[]]
  | c :: rest =>
    match splitOnChar sep rest with
    | [] => [[c]]
    | g :: gs => if c = sep then [] :: g :: gs else (c :: g) :: gs

/-- Python `path.split(".")`. -/
def pySplitDot (s : String) : List String :=
  (splitOnChar '.' s.data).map String.mk

/-- The loop of `Object.find`: walk the children mappings along the path
components, returning `none` as soon as a component is missing. -/
def findComponents : Object → List String → Option Object
  | t, [] => some t
  | t, n :: rest =>
    match List.lookup n t.children with
    | none => none
    | some c => findComponents c rest

/-- `Object.find(path)`: look up a dot-separated object path. -/
def Object.find (t : Object) (path : String) : Option Object :=
  findComponents t (pySplitDot path)

mutual

/-- An object together with all its descendants (used only to bound the
fuel of `find_all_bases`). -/
def objSubobjs : Object → List Object
  | .mk d ch => .mk d ch :: chSubobjs ch

/-- All objects reachable from a children mapping. -/
def chSubobjs : List (String × Object) → List Object
  | [] => []
  | (_, o) :: r => objSubobjs o ++ chSubobjs r

end

/-- Every base name appearing anywhere in a tree. -/
def allBaseNames (t : Object) : List String :=
  (objSubobjs t).flatMap (fun o => o.objData.bases)

/-- A finite superset of every name `find_all_bases` can ever push on its
stack: the queried object's own bases and every base name in the tree. -/
def baseNameSet (tree obj : Object) : Finset String :=
  (allBaseNames tree ++ obj.objData.bases).toFinset

/-- Fuel that always suffices for `findAllBasesGo` (each unseen name is
processed at most once and pushes at most `allBaseNames tree` names). -/
def fabFuel (tree obj : Object) : Nat :=
  (baseNameSet tree obj).card * ((allBaseNames tree).length + 1) +
    obj.objData.bases.length + 1

/-- The worklist loop of `Object.find_all_bases` (objtree.py lines 345-357).
The Python `stack` pops from its end; the embedding keeps the stack
reversed, with the top at the head, so `stack.extend(base.bases)` pushes
`base.bases.reverse`.  A popped name already in `seen` is skipped; an
unseen name is recorded in `seen`, resolved through `tree.find`, appended
to the result when it resolves to an object other than the queried one, and
its own bases are pushed when it is a `Class`.  Fuel exhaustion returns
`none`; `fabFuel` makes it unreachable (see the claim on cycle safety). -/
def findAllBasesGo (tree obj : Object) :
    Nat → List String → Finset String → List Object → Option (List Object)
  | 0, _, _, _ => none
  | Nat.succ _, [], _, acc => some acc
  | Nat.succ fuel, name :: rest, seen, acc =>
    if name ∈ seen then
      findAllBasesGo tree obj fuel rest seen acc
    else
      let seen' := insert name seen
      match Object.find tree name with
      | none => findAllBasesGo tree obj fuel rest seen' acc
      | some base =>
        if objBEq base obj then
          findAllBasesGo tree obj fuel rest seen' acc
        else if base.objData.tag = Tag.cls then
          findAllBasesGo tree obj fuel (base.objData.bases.reverse ++ rest) seen'
            (acc ++ [base])
        else
          findAllBasesGo tree obj fuel rest seen' (acc ++ [base])

/-- `Object.find_all_bases(obj)` called on the tree root `tree`: all bases
of `obj`, including transitive ones, in DFS order. -/
def Object.findAllBases (tree obj : Object) : Option (List Object) :=
  findAllBasesGo tree obj (fabFuel tree obj) obj.objData.bases.reverse ∅ []

/-! ## `DocstringMixin._parse_docstring` (objtree.py lines 105-215)

The docstring parser is a pipeline of regex-based text transformations.
Each Python regex operating on this fixed pattern set is compiled by hand
into a character scanner with the same semantics: `^...$` patterns under
`re.MULTILINE` anchor at positions following a newline, `\s` may cross
newlines, and substitution scans left to right, resuming after each match.
The scanners recurse on a fuel bounded by the input length (one character
is consumed per step, so `length + 1` always suffices).
-/

/-- Python `sep.join(...)` for a one-character separator. -/
def joinSepChar (sep : Char) : List (List Char) → List Char
  | [] => []
  | [x] => x
  | x :: y :: xs => x ++ sep :: joinSepChar sep (y :: xs)

/-- `"\n".join(...)`. -/
def joinNl (ls : List (List Char)) : List Char :=
  joinSepChar '\n' ls

/-- Python `str.splitlines()` (over `\n`): like splitting on `\n` but
without a final empty piece after a trailing newline. -/
def pySplitlinesCh (l : List Char) : List (List Char) :=
  let ls := splitOnChar '\n' l
  if ls.getLast? = some [] then ls.dropLast else ls

/-- The line test of `re.sub(r"^\@\*\w+\*.*$", "", docs, flags=re.MULTILINE)`:
the line starts with `@*`, a nonempty run of word characters, and `*`. -/
def junkLineMatch (l : List Char) : Bool :=
  match l with
  | '@' :: '*' :: rest =>
    let w := rest.takeWhile isPyWord
    !w.isEmpty && ((rest.drop w.length).head? == some '*')
  | _ => false

/-- The junk-line substitution: a matching line's content is replaced by the
empty string (its newline survives). -/
def stripJunkLines (ls : List (List Char)) : List (List Char) :=
  ls.map (fun l => if junkLineMatch l then [] else l)

/-- The opener of `re.sub(r"^```lua\n.*?\n```", "", ...)`: a line reading
exactly ` ```lua `. -/
def fenceOpenLine : List Char := "```lua".data

/-- A line starting with three backticks closes a fenced block (the lazy
`.*?\n``` ` stops at the first one). -/
def fenceCloseTest (l : List Char) : Bool :=
  l.take 3 == "```".data

/-- Find the first closing line; return its remainder after the three
backticks (which the match does not consume) and the following lines. -/
def findFenceClose : List (List Char) → Option (List Char × List (List Char))
  | [] => none
  | l :: rest =>
    if fenceCloseTest l then some (l.drop 3, rest)
    else findFenceClose rest

/-- The fenced-block substitution (`re.MULTILINE | re.DOTALL`): an opener
line with a later closer collapses the region into the closer's remainder,
which is not itself an anchor position; an opener without a closer stays.
The closer's `\n` cannot be the one `^```lua\n` already consumed, so the
closing line is searched starting at the second line after the opener. -/
def stripFencedGo : Nat → List (List Char) → List (List Char)
  | 0, ls => ls
  | Nat.succ _, [] => []
  | Nat.succ fuel, l :: rest =>
    if l = fenceOpenLine then
      match rest with
      | [] => l :: stripFencedGo fuel rest
      | _ :: rrest =>
        match findFenceClose rrest with
        | some (closeRest, after) => closeRest :: stripFencedGo fuel after
        | none => l :: stripFencedGo fuel rest
    else l :: stripFencedGo fuel rest

/-- The fenced-block substitution on a line list. -/
def stripFenced (ls : List (List Char)) : List (List Char) :=
  stripFencedGo (ls.length + 1) ls

/-- Whether the next character exists and is whitespace (the mandatory `\s+`
after `!doc`/`!doctype`). -/
def headIsSpace (l : List Char) : Bool :=
  match l.head? with
  | some c => isPySpace c
  | none => false

/-- After `!doc`/`!doctype`, the greedy `\s+` crosses newlines to the last
whitespace, and `(?P<value>.*)$` takes the rest of that line: return the
value and the unconsumed remainder (from the value line's newline on). -/
def lineValueSplit (l : List Char) : List Char × List Char :=
  let w := l.dropWhile isPySpace
  (w.takeWhile (fun c => !(c = '\n')), w.dropWhile (fun c => !(c = '\n')))

/-- Attempt of `^\s*\!doc(?P<type>type)?\s+(?P<value>.*)$` at an anchor
position: skip the maximal whitespace run (which may cross newlines), then
require `!doc`, the optional greedy `type` (kept only when whitespace
follows, as the regex backtracks otherwise), and at least one whitespace.
Returns (whether `type` matched, the value, the rest of the input). -/
def tryMatchDoc (cs : List Char) : Option (Bool × List Char × List Char) :=
  let t := cs.dropWhile isPySpace
  if ("!doc".data).isPrefixOf t then
    let r := t.drop 4
    if ("type".data).isPrefixOf r && headIsSpace (r.drop 4) then
      let vr := lineValueSplit (r.drop 4)
      some (true, vr.1, vr.2)
    else if headIsSpace r then
      let vr := lineValueSplit r
      some (false, vr.1, vr.2)
    else none
  else none

/-- The substitution `re.sub(r"^\s*\!doc(?:type)?\s+(?:.*)$", "", docs,
flags=re.MULTILINE)`: at every anchor position try the match; on success
drop the matched region and resume after it (mid-line, so the next anchor
is after the following newline). -/
def stripDocLinesGo : Nat → Bool → List Char → List Char
  | 0, _, l => l
  | Nat.succ _, _, [] => []
  | Nat.succ fuel, atLS, c :: cs =>
    if atLS then
      match tryMatchDoc (c :: cs) with
      | some (_, _, rest) => stripDocLinesGo fuel false rest
      | none => c :: stripDocLinesGo fuel (c = '\n') cs
    else
      c :: stripDocLinesGo fuel (c = '\n') cs

/-- The `!doc` removal substitution. -/
def stripDocLines (l : List Char) : List Char :=
  stripDocLinesGo (l.length + 1) true l

/-- `re.finditer` of the `!doc` pattern (`_parse_options`): collect
(is-doctype, value) for every non-overlapping match, left to right. -/
def scanDocOptsGo : Nat → Bool → List Char → List (Bool × List Char)
  | 0, _, _ => []
  | Nat.succ _, _, [] => []
  | Nat.succ fuel, atLS, c :: cs =>
    if atLS then
      match tryMatchDoc (c :: cs) with
      | some (isT, v, rest) => (isT, v) :: scanDocOptsGo fuel false rest
      | none => scanDocOptsGo fuel (c = '\n') cs
    else
      scanDocOptsGo fuel (c = '\n') cs

/-- All `!doc`/`!doctype` matches of a docstring. -/
def scanDocOpts (l : List Char) : List (Bool × List Char) :=
  scanDocOptsGo (l.length + 1) true l

/-- `value.split(":", maxsplit=1)` when a colon is present, else
`(value, "")`. -/
def splitFirstColon (v : List Char) : List Char × List Char :=
  if v.contains ':' then
    (v.takeWhile (fun c => !(c = ':')), (v.dropWhile (fun c => !(c = ':'))).drop 1)
  else (v, [])

/-- Python dict assignment `options[name] = arg`. -/
def pySetOpt (l : List (String × String)) (k v : String) : List (String × String) :=
  if (List.lookup k l).isSome then setEntry l k v else l ++ [(k, v)]

/-- The accumulation loop of `_parse_options`: starting from the inferred
options and doctype, a `!doctype` match overwrites the doctype with its
stripped value, and a `!doc` match is split at its first colon into a
stripped name and argument. -/
def parseOptsFold (ms : List (Bool × List Char))
    (opts0 : List (String × String)) (dt0 : Option String) :
    List (String × String) × Option String :=
  ms.foldl
    (fun acc m =>
      if m.1 then (acc.1, some (String.mk (pyStripChars m.2)))
      else
        let v := pyStripChars m.2
        let nv := splitFirstColon v
        (pySetOpt acc.1 (String.mk (pyStripChars nv.1)) (String.mk (pyStripChars nv.2)),
          acc.2))
    (opts0, dt0)

/-- The `See:` header line of `re.finditer(r"^See:\n", docs, re.MULTILINE)`. -/
def seeHeaderLine : List Char := "See:".data

/-- Index of the last `See:` header line that is followed by a newline. -/
def lastSeeIdx (ls : List (List Char)) : Option Nat :=
  ((List.range ls.length).filter (fun i =>
    (ls[i]? == some seeHeaderLine) && decide (i + 1 < ls.length))).getLast?

/-- Split the docstring at the last `See:` header (`see_sections[-1]`):
returns the text before the header and the section after it (empty when no
header exists). -/
def splitSeeSection (docs : List Char) : List Char × List Char :=
  let ls := splitOnChar '\n' docs
  match lastSeeIdx ls with
  | none => (docs, [])
  | some i =>
    let pre := if i = 0 then [] else joinNl (ls.take i) ++ ['\n']
    (pre, joinNl (ls.drop (i + 1)))

/-- The `~TypeName~ doc` alternative of the see-line patterns: after the
opening tilde, the lazy `(.+?)~` stops at the first tilde leaving at least
one character of content; the rest of the line is the doc. -/
def tildeAlt (rest : List Char) : Option (List Char × List Char) :=
  match rest with
  | '~' :: r =>
    match (r.drop 1).findIdx? (fun c => c = '~') with
    | none => none
    | some j0 => some (r.take (j0 + 1), r.drop (j0 + 2))
  | _ => none

/-- The `[DisplayText](link) doc` alternative: the lazy `(.+?)\]\(` stops at
the first `](` (with nonempty text) for which a closing parenthesis exists
further on; the link is lazy to the first `)`; the rest is the doc. -/
def bracketAlt (rest : List Char) : Option (List Char × List Char) :=
  match rest with
  | '[' :: r =>
    match ((List.range r.length).filter (fun j =>
        decide (1 ≤ j) && (r[j]? == some ']') && (r[j + 1]? == some '('))).find?
        (fun j => (r.drop (j + 2)).contains ')') with
    | none => none
    | some j =>
      let r2 := r.drop (j + 2)
      let k := r2.findIdx (fun c => c = ')')
      some (r.take j, r2.drop (k + 1))
  | _ => none

/-- A `See:`-section bullet line: `  * ` followed by either alternative
(the tilde alternative is tried first). -/
def seeBulletMatch (line : List Char) : Option (List Char × List Char) :=
  match line with
  | ' ' :: ' ' :: '*' :: ' ' :: rest =>
    match tildeAlt rest with
    | some td => some td
    | none => bracketAlt rest
  | _ => none

/-- The inline pattern `^See:[ ](?:~...~...|\[...\](...)...)$` searched in
the remaining body by the `for ... else` clause. -/
def inlineSeeMatch (line : List Char) : Option (List Char × List Char) :=
  if ("See: ".data).isPrefixOf line then
    let rest := line.drop 5
    match tildeAlt rest with
    | some td => some td
    | none => bracketAlt rest
  else none

/-- `f":lua:obj:\x60{typ}\x60{doc}"` with `doc` prefixed by `: ` when
nonempty. -/
def mkSeeLine (typ doc : List Char) : List Char :=
  ":lua:obj:".data ++ '\x60' :: (typ ++ '\x60' :: (if doc.isEmpty then [] else ':' :: ' ' :: doc))

/-- `re.search` of the inline pattern: the first matching line, returned
with its full text (the match's `group(0)`). -/
def firstInlineMatch : List (List Char) → Option (List Char × List Char × List Char)
  | [] => none
  | l :: rest =>
    match inlineSeeMatch l with
    | some td => some (l, td.1, td.2)
    | none => firstInlineMatch rest

/-- Python `s.replace(pat, "")`: remove every non-overlapping occurrence,
left to right. -/
def strReplaceAllGo : Nat → List Char → List Char → List Char
  | 0, _, l => l
  | Nat.succ _, _, [] => []
  | Nat.succ fuel, pat, c :: cs =>
    if !pat.isEmpty && pat.isPrefixOf (c :: cs) then
      strReplaceAllGo fuel pat ((c :: cs).drop pat.length)
    else
      c :: strReplaceAllGo fuel pat cs

/-- Python `s.replace(pat, "")`. -/
def strReplaceAll (s pat : List Char) : List Char :=
  strReplaceAllGo (s.length + 1) pat s

/-- Longest common prefix of two indents (the margin-merging loop of
`textwrap.dedent`). -/
def commonPrefixChars : List Char → List Char → List Char
  | x :: xs, y :: ys => if x = y then x :: commonPrefixChars xs ys else []
  | _, _ => []

/-- One step of the margin computation of `textwrap.dedent`: lines without
content are ignored; the first content line sets the margin, later ones
shrink it to the common prefix of the indents. -/
def marginStep (m : Option (List Char)) (l : List Char) : Option (List Char) :=
  if l.any (fun c => !isPySpace c) then
    match m with
    | none => some (l.takeWhile isPySpace)
    | some mm => some (commonPrefixChars mm (l.takeWhile isPySpace))
  else m

/-- `textwrap.dedent`: compute the margin over the content lines and strip
it from every line that starts with it. -/
def pyDedent (l : List Char) : List Char :=
  let ls := splitOnChar '\n' l
  let m := (ls.foldl marginStep none).getD []
  joinNl (ls.map (fun ln => if m.isPrefixOf ln then ln.drop m.length else ln))

/-- The two backend-cleanup substitutions applied to a docstring (junk
lines, then fenced blocks). -/
def cleanupPassOf (s : String) : List Char :=
  joinNl (stripFenced (stripJunkLines (splitOnChar '\n' s.data)))

/-- The docstring after cleanup and `!doc` removal (the `docs` reaching the
`See:` handling). -/
def cleanedDocsOf (s : String) : List Char :=
  stripDocLines (cleanupPassOf s)

/-- The split of the cleaned docstring at its last `See:` header. -/
def seeSplitOf (s : String) : List Char × List Char :=
  splitSeeSection (cleanedDocsOf s)

/-- The lines of the `See:` section paired with their bullet matches. -/
def seeBulletsOf (s : String) : List (List Char × Option (List Char × List Char)) :=
  (pySplitlinesCh (seeSplitOf s).2).map (fun ln => (ln, seeBulletMatch ln))

/-- The inline `See: [..]` match the `for ... else` clause searches in the
remaining body. -/
def seeInlineOf (s : String) : Option (List Char × List Char × List Char) :=
  firstInlineMatch (splitOnChar '\n' (seeSplitOf s).1)

/-- Every cross-reference line the docstring parse produces: the matched
`See:`-section bullets, plus the converted inline `See:` line when one is
found (its doc part stripped). -/
def seeLinesOf (s : String) : List (List Char) :=
  let seeL0 := (seeBulletsOf s).filterMap (fun p => p.2.map (fun td => mkSeeLine td.1 td.2))
  match seeInlineOf s with
  | some t => seeL0 ++ [mkSeeLine t.2.1 (pyStripChars t.2.2)]
  | none => seeL0

/-- The docstring body under cleanup, before the cross-reference lines are
appended: the pre-`See:` part with a matched inline `See:` line removed
(every occurrence), unmatched bullets re-appended under a literal `See:`
header, and the result dedented. -/
def seeBodyOf (s : String) : List Char :=
  let ps := seeSplitOf s
  let rejected := (seeBulletsOf s).filterMap (fun p => if p.2.isSome then none else some p.1)
  let docs3 : List Char :=
    match seeInlineOf s with
    | some t => strReplaceAll ps.1 t.1
    | none => ps.1
  pyDedent (if !rejected.isEmpty then docs3 ++ "\n\nSee:\n".data ++ joinNl rejected else docs3)

/-- The bulleted `See:` block appended when two or more cross-reference
lines exist: a `See:` header and `- <ref>` bullets, all separated by blank
lines (`["", "See:", ""] + [nl for l in see_lines for nl in (f"- {l}", "")]`
joined with newlines). -/
def seeBlockOf (ls : List (List Char)) : List Char :=
  joinNl ([[], seeHeaderLine, []] ++ ls.flatMap (fun sl => ['-' :: ' ' :: sl, []]))

/-- The `See:` re-flow appended to the body (objtree.py lines 183-191):
with two or more cross-reference lines, the bulleted block; with one, the
single inline line `See <ref>`; with none, nothing. -/
def seeTailOf (s : String) : List Char :=
  if (seeLinesOf s).length > 1 then
    seeBlockOf (seeLinesOf s)
  else
    joinNl ([] :: (seeLinesOf s).map (fun sl => "See ".data ++ sl))

/-- `DocstringMixin._parse_docstring`, producing the triple
`(parsed_docstring, parsed_options, parsed_doctype)`.

An empty or absent docstring yields `(None, {}, inferred_doctype)`.
Otherwise, under `needs_cleanup`, junk lines and fenced blocks are
stripped; the options and doctype are collected (into the inferred ones)
before every `!doc` line is removed; then the trailing `See:` section is
split off and its bullets converted to cross-reference lines, the
always-running `for ... else` clause converts (and removes) an inline
`See: [..]` line from the remaining body, unmatched bullets are re-appended
verbatim after the body, the body is dedented, and the cross-reference
lines are appended — inline (`See <ref>`) for at most one line, as a
bulleted block separated by blank lines for two or more.  Without
`needs_cleanup` the body is only scanned for options, stripped of `!doc`
lines and dedented. -/
def parseDocstringCore (docstring : Option String) (needs_cleanup : Bool)
    (inferred_options : List (String × String)) (inferred_doctype : Option String) :
    Option String × List (String × String) × Option String :=
  if !pyTruthy docstring then
    (none, [], inferred_doctype)
  else
    let s := docstring.getD ""
    if needs_cleanup then
      let od := parseOptsFold (scanDocOpts (cleanupPassOf s)) inferred_options inferred_doctype
      (some (String.mk (seeBodyOf s ++ seeTailOf s)), od.1, od.2)
    else
      let od := parseOptsFold (scanDocOpts s.data) inferred_options inferred_doctype
      (some (String.mk (pyDedent (stripDocLines s.data))), od.1, od.2)

/-- The memoized triple of `parsed_docstring`, `parsed_options`,
`parsed_doctype` of a record. -/
def Object.parsedTriple (o : Object) :
    Option String × List (String × String) × Option String :=
  parseDocstringCore o.objData.docstring o.objData.needs_cleanup
    o.objData.inferred_options o.objData.inferred_doctype

/-- `parsed_docstring`. -/
def Object.parsedDocstring (o : Object) : Option String :=
  o.parsedTriple.1

/-- `parsed_options`. -/
def Object.parsedOptions (o : Object) : List (String × String) :=
  o.parsedTriple.2.1

/-- `parsed_doctype`. -/
def Object.parsedDoctype (o : Object) : Option String :=
  o.parsedTriple.2.2

/-! ## `get_kind` and the rendering kind gate (objtree.py lines 312-331,
457-679; autodoc.py lines 253-260) -/

/-- `get_kind(parsed_doctype)` of each Python class: the structural kind
combined with a doctype override, `none` when the override is incompatible
with the class. -/
def getKindOf : Tag → Option String → Option Kind
  | .obj, dt =>
    if dt = none || dt = some "module" then some .module
    else if dt = some "data" || dt = some "const" || dt = some "attribute" then some .data
    else if dt = some "table" then some .table
    else none
  | .data, dt =>
    if dt = none || dt = some "data" || dt = some "const" || dt = some "attribute" then
      some .data
    else if dt = some "table" then some .table
    else if dt = some "module" then some .module
    else none
  | .table, dt =>
    if dt = none || dt = some "table" then some .table
    else if dt = some "data" || dt = some "const" || dt = some "attribute" then some .data
    else if dt = some "module" then some .module
    else none
  | .func, dt =>
    if dt = none || dt = some "function" || dt = some "method"
        || dt = some "classmethod" || dt = some "staticmethod" then
      some .func
    else none
  | .cls, dt =>
    if dt = none || dt = some "class" then some .cls
    else if dt = some "data" || dt = some "const" || dt = some "attribute" then some .data
    else if dt = some "table" then some .table
    else if dt = some "module" then some .module
    else none
  | .alias, dt =>
    if dt = none || dt = some "alias" then some .alias
    else if dt = some "data" || dt = some "const" || dt = some "attribute" then some .data
    else if dt = some "table" then some .table
    else if dt = some "module" then some .module
    else none
  | .enum, dt =>
    if dt = none || dt = some "enum" then some .enum
    else if dt = some "data" || dt = some "const" || dt = some "attribute" then some .data
    else if dt = some "table" then some .table
    else if dt = some "module" then some .module
    else none

/-- The lazily computed `kind` property: `get_kind` applied to the doctype
parsed from the docstring. -/
def Object.kind (o : Object) : Option Kind :=
  getKindOf o.objData.tag o.parsedDoctype

/-- `root.__class__.__name__.lower()`. -/
def tagName : Tag → String
  | .obj => "object"
  | .data => "data"
  | .table => "table"
  | .func => "function"
  | .cls => "class"
  | .alias => "alias"
  | .enum => "enum"

/-- Python `f"{x}"` on an optional string (`None` prints as `None`). -/
def pyShowOptStr : Option String → String
  | none => "None"
  | some s => s

/-- `".".join(filter(None, [modname, classname, name]))`: falsy components
(`None` and `""`) are dropped. -/
def pyFilterJoin (parts : List (Option String)) : String :=
  String.intercalate "." ((parts.filterMap id).filter (fun s => !s.isEmpty))

/-- The first check of `AutodocUtilsMixin.render` (autodoc.py lines
253-260): when the record's `kind` resolves to `None` — a doctype override
incompatible with the structural kind — rendering fails with the error
`"{what} {fullname} can't have !doctype {parsed_doctype}"`; otherwise the
kind is returned and rendering proceeds by dispatching on it. -/
def renderKindGate (o : Object) (modname classname : Option String) (name : String) :
    Except String Kind :=
  match o.kind with
  | none =>
    .error (tagName o.objData.tag ++ " " ++ pyFilterJoin [modname, classname, some name]
      ++ " can't have !doctype " ++ pyShowOptStr o.parsedDoctype)
  | some k => .ok k

/-! ## `_iter_children` member filtering (autodoc.py lines 103-194)

Only the inclusion/exclusion decision for one `(name, child)` pair is
modelled (the ordering and the globals splice of `_iter_children` do not
enter the filtering claims): the option bag is reduced to the include
flags, the include set and the exclude list exactly as lines 103-151 do,
and `includedChild` is the body of the `for` loop (lines 153-194). -/

/-- A value of the autodoc option bag: missing, `True`, or a name list
(`parse_list_option_or_true` output). -/
inductive OptV where
  | absent
  | flagTrue
  | names (l : List String)
deriving DecidableEq

/-- Python truthiness of an option value (the walrus test
`if v := options.get(k):`): missing and the empty list are falsy. -/
def optvTruthy : OptV → Bool
  | .absent => false
  | .flagTrue => true
  | .names l => !l.isEmpty

/-- `v is True`, reached only under the truthiness test. -/
def optvIsTrue : OptV → Bool
  | .flagTrue => true
  | _ => false

/-- The names a truthy list-valued option adds to the `include` set. -/
def optvNames : OptV → List String
  | .names l => l
  | _ => []

/-- The `*-members` options consumed by the filter. -/
structure MemberOpts where
  members : OptV
  undoc_members : OptV
  private_members : OptV
  protected_members : OptV
  package_members : OptV
  special_members : OptV
  inherited_members : OptV
  exclude_members : OptV
deriving DecidableEq

/-- The `include` set (lines 111-151): every truthy list-valued
`*-members` option contributes its names. -/
def includeSetOf (opts : MemberOpts) : List String :=
  optvNames opts.members ++ optvNames opts.undoc_members
    ++ optvNames opts.private_members ++ optvNames opts.protected_members
    ++ optvNames opts.package_members ++ optvNames opts.special_members
    ++ optvNames opts.inherited_members

/-- The `exclude` set: `options.get("exclude-members", set())`, with `True`
treated as the empty set. -/
def excludeListOf (opts : MemberOpts) : List String :=
  optvNames opts.exclude_members

/-- The body of the filtering loop of `_iter_children` (lines 153-194) for
one `(name, child)` pair: an excluded name is dropped; a name in the
`include` set or a top-level child skips every gate; otherwise each
category (undocumented, private, protected, package, special/dunder,
inherited) drops the child unless its `*-members` flag is `True`, and a
child in no category is dropped unless `members` is `True`. -/
def includedChild (opts : MemberOpts) (inheritedNames : List String)
    (name : String) (child : Object) : Bool :=
  if (excludeListOf opts).contains name then false
  else if !(includeSetOf opts).contains name && !child.objData.is_toplevel then
    let is_undoc := !pyTruthy child.parsedDocstring
    if is_undoc && !optvIsTrue opts.undoc_members then false
    else
      let is_private :=
        (child.objData.visibility == some Visibility.Private)
          || (List.lookup "private" child.parsedOptions).isSome
      if is_private && !optvIsTrue opts.private_members then false
      else
        let is_protected :=
          (child.objData.visibility == some Visibility.Protected)
            || (List.lookup "protected" child.parsedOptions).isSome
        if is_protected && !optvIsTrue opts.protected_members then false
        else
          let is_package :=
            (child.objData.visibility == some Visibility.Package)
              || (List.lookup "package" child.parsedOptions).isSome
          if is_package && !optvIsTrue opts.package_members then false
          else
            let is_special := name.startsWith "__"
            if is_special && !optvIsTrue opts.special_members then false
            else
              let is_inherited := inheritedNames.contains name
              if is_inherited && !optvIsTrue opts.inherited_members then false
              else if !is_undoc && !is_private && !is_protected && !is_package
                  && !is_special && !is_inherited && !optvIsTrue opts.members then
                false
              else true
  else true

/-- Modelled from the spec: the inclusion rule as the claim states it — a
symbol is included iff it matches the explicit include-list, or it is not a
top-level global and passes every category gate (undocumented,
private/protected/package visibility, double-underscore names, inherited
names — each gate off unless its `*-members` option is present); an
explicit exclude-list entry always wins. -/
def claimIncludedChild (opts : MemberOpts) (inheritedNames : List String)
    (name : String) (child : Object) : Bool :=
  if (excludeListOf opts).contains name then false
  else
    (includeSetOf opts).contains name
      || (!child.objData.is_toplevel
        && (!(!pyTruthy child.parsedDocstring) || optvIsTrue opts.undoc_members)
        && (!((child.objData.visibility == some Visibility.Private)
            || (List.lookup "private" child.parsedOptions).isSome)
          || optvIsTrue opts.private_members)
        && (!((child.objData.visibility == some Visibility.Protected)
            || (List.lookup "protected" child.parsedOptions).isSome)
          || optvIsTrue opts.protected_members)
        && (!((child.objData.visibility == some Visibility.Package)
            || (List.lookup "package" child.parsedOptions).isSome)
          || optvIsTrue opts.package_members)
        && (!name.startsWith "__" || optvIsTrue opts.special_members)
        && (!inheritedNames.contains name || optvIsTrue opts.inherited_members))

/-- An option bag with every option absent. -/
def noMemberOpts : MemberOpts :=
  ⟨.absent, .absent, .absent, .absent, .absent, .absent, .absent, .absent⟩

/-! ## Concrete record helper for witnesses -/

/-- Build a record with the given tag, docstring fields, foreign flag,
visibility, line, top-level flag, bases and children; every remaining field
takes its dataclass default. -/
def mkObj (tag : Tag) (docstring : Option String) (needs_cleanup : Bool)
    (inferred_doctype : Option String) (is_foreign : Bool)
    (visibility : Option Visibility) (line : Option Int) (is_toplevel : Bool)
    (bases : List String) (children : List (String × Object)) : Object :=
  Object.mk
    { tag := tag
      docstring := docstring
      needs_cleanup := needs_cleanup
      inferred_options := []
      inferred_doctype := inferred_doctype
      is_deprecated := false
      deprecation_reason := none
      is_nodiscard := false
      nodiscard_reason := none
      is_async := false
      visibility := visibility
      see := []
      files := []
      docstring_file := none
      is_foreign := is_foreign
      line := line
      usings := []
      is_toplevel := is_toplevel
      bases := bases }
    children

/-! ## Concrete records used by counterexamples and witnesses -/

/-- A non-foreign record with `Private` visibility (merge-ordering example). -/
def exNonForeign : Object :=
  mkObj .obj (some "adoc") false none false (some .Private) (some 1) false [] []

/-- A foreign record with `Public` visibility and the same priority and
line (merge-ordering example). -/
def exForeign : Object :=
  mkObj .obj (some "bdoc") false none true (some .Public) (some 1) false [] []

/-- A class record with two children (self-merge example). -/
def exSelf : Object :=
  mkObj .cls (some "doc") false none false none (some 5) false ["B"]
    [("x", mkObj .func none false none false none (some 7) false [] []),
     ("y", mkObj .data (some "yd") false none false none none false [] [])]

/-- A function record whose docstring forces `!doctype class` (incompatible
override example). -/
def exBadFunction : Object :=
  mkObj .func (some "!doctype class\nbody") false none false none none false [] []

/-- An undocumented top-level record (member-filter example). -/
def exToplevel : Object :=
  mkObj .data none false none false none (some 3) true [] []

/-- A record with no docstring but an inferred `!doctype table` tag
(empty-docstring example). -/
def exInferredDoctype : Object :=
  mkObj .table none true (some "table") false none none false [] []

/-- A docstring whose `See:` section produces exactly one cross-reference
line. -/
def exSeeOneDoc : String := "hello\nSee:\n  * [A](link) stuff\n"

/-- A docstring whose `See:` section produces two cross-reference lines. -/
def exSeeTwoDoc : String := "hello\nSee:\n  * [A](x)\n  * ~B.C~ doc2\n"

/-- A class whose base list names `exCycleB`, forming a cycle. -/
def exCycleA : Object :=
  mkObj .cls none false none false none none true ["B"] []

/-- A class whose base list names `exCycleA`, forming a cycle. -/
def exCycleB : Object :=
  mkObj .cls none false none false none none true ["A"] []

/-- A tree containing the two-class base cycle. -/
def exCycleTree : Object :=
  mkObj .obj none false none false none none false [] [("A", exCycleA), ("B", exCycleB)]

/-! # Theorems -/

/-- C8: the separator scanners treat string literals and brackets as
shields: `separate_paren_prefix("(a, ')', c) d, e, f")` returns
`("a, ')', c", "d, e, f")` because the closing parenthesis inside the
single-quoted literal does not terminate the group, and
`parse_types("fun(): ..., fun(): integer")` returns
`[("", "fun(): ..."), ("", "fun(): integer")]` because both top-level
comma-separated segments fail the bare-identifier test before the colon and
are emitted as bare types with empty names. -/
theorem scanner_shield_examples :
    separateParenPrefix "(a, ')', c) d, e, f" = ("a, ')', c", "d, e, f") ∧
    parseTypes "fun(): ..., fun(): integer" false =
      [("", "fun(): ..."), ("", "fun(): integer")] :=
  ⟨rfl, rfl⟩

/-- Helper for the totality claim: when no closing parenthesis occurs in
the input at all, the scan of `separate_paren_prefix` never returns early,
whatever state it is in. -/
theorem sppScan_no_close (s : List Char) :
    ∀ st : ScanSt, ')' ∉ s → sppScan ')' st s = none := by
  induction s with
  | nil => intro st _; rfl
  | cons c cs ih =>
    intro st h
    have hc : ¬ c = ')' := fun e => h (e ▸ List.mem_cons_self c cs)
    have hcs : ')' ∉ cs := fun m => h (List.mem_cons_of_mem _ m)
    rw [sppScan]
    split_ifs with h1 h2 h3 h4 h5 h6 h7 h8 <;>
      simp_all [consCar, ih _ hcs]

/-- C10: the separator scanners are total on arbitrary input: an unmatched
closing bracket at depth zero is clamped rather than driving the depth
negative (so later separators still split), an unterminated string literal
consumes the rest of the input without error, and when no closing
parenthesis exists `separate_paren_prefix` returns the whole remaining text
as the group together with an empty suffix.  (Totality itself is intrinsic:
both embedded functions are total Lean functions mirroring the raise-free
Python loops.) -/
theorem scanner_totality :
    (∀ s : List Char, ')' ∉ s →
      separateParenPrefixCh '(' ')' ('(' :: s) = (pyStripChars s, [])) ∧
    separateSig "a], b" ',' true = ["a]", "b"] ∧
    separateSig "a, 'b,c" ',' true = ["a", "'b,c"] ∧
    separateParenPrefix "(a, b" = ("a, b", "") := by
  refine ⟨?_, rfl, rfl, rfl⟩
  intro s hs
  rw [separateParenPrefixCh]
  simp [sppScan_no_close s scanInit hs]

/-- Witness for the totality claim at a concrete input. -/
theorem scanner_totality_witness :
    (')' ∉ ['x']) ∧
    separateParenPrefixCh '(' ')' ['(', 'x'] = (pyStripChars ['x'], []) :=
  ⟨by decide, scanner_totality.1 ['x'] (by decide)⟩

/-- C6 (amended): for a record whose raw docstring is empty or absent, the
parse yields docstring `None` and an empty options mapping, but the parsed
doctype is the record's *inferred* doctype (the structured `!doctype` tag a
backend may have supplied), not necessarily `None`. -/
theorem empty_docstring_parse (o : Object)
    (h : pyTruthy o.objData.docstring = false) :
    o.parsedTriple = (none, [], o.objData.inferred_doctype) := by
  simp [Object.parsedTriple, parseDocstringCore, h]

/-- Counterexample to C6 as stated: a record with no docstring but an
inferred doctype parses to a doctype of `table`, not `None`. -/
theorem empty_docstring_parse_cex :
    exInferredDoctype.objData.docstring = none ∧
    exInferredDoctype.parsedDoctype = some "table" :=
  ⟨rfl, rfl⟩

/-- Witness for the amended empty-docstring claim. -/
theorem empty_docstring_parse_witness :
    pyTruthy exInferredDoctype.objData.docstring = false ∧
    exInferredDoctype.parsedTriple = (none, [], some "table") :=
  ⟨rfl, empty_docstring_parse exInferredDoctype rfl⟩

/-- C4: a doctype override incompatible with the structural kind (for
example `!doctype class` forced onto a `Function`) makes the `kind` query
yield no valid kind, and the rendering gate that queries it fails with the
error naming the record (its class name and dotted full name) and the
offending doctype, instead of silently coercing the kind; the check sits at
the entry of `render`, i.e. at the point the kind is queried. -/
theorem render_doctype_error :
    getKindOf Tag.func (some "class") = none ∧
    ∀ (o : Object) (modname classname : Option String) (name : String),
      o.kind = none →
      renderKindGate o modname classname name =
        Except.error (tagName o.objData.tag ++ " "
          ++ pyFilterJoin [modname, classname, some name]
          ++ " can't have !doctype " ++ pyShowOptStr o.parsedDoctype) := by
  refine ⟨rfl, ?_⟩
  intro o modname classname name h
  simp [renderKindGate, h]

/-- Witness for the doctype-incompatibility claim: a function record whose
docstring carries `!doctype class`. -/
theorem render_doctype_error_witness :
    exBadFunction.kind = none ∧
    renderKindGate exBadFunction (some "mod") none "f" =
      Except.error "function mod.f can't have !doctype class" :=
  ⟨rfl, render_doctype_error.2 exBadFunction (some "mod") none "f" rfl⟩

/-- Helper: under backend cleanup, a nonempty docstring parses to the
dedented body followed by the `See:` re-flow tail. -/
theorem parse_cleanup_shape (s : String) (io : List (String × String))
    (idt : Option String) (hs : pyTruthy (some s) = true) :
    (parseDocstringCore (some s) true io idt).1 =
      some (String.mk (seeBodyOf s ++ seeTailOf s)) := by
  simp [parseDocstringCore, hs]

/-- C5: when docstring parsing with backend cleanup produces exactly one
cross-reference line, it is appended inline to the body as a single
`See <ref>` line (the reference itself starting with the `:lua:obj:` role,
so the text reads `See :lua:obj:...`); with two or more lines, a bulleted
block under a `See:` header is appended instead, with a blank line between
bullets — the one-entry and many-entry formats differ qualitatively. -/
theorem see_reflow (s : String) (io : List (String × String))
    (idt : Option String) (hs : pyTruthy (some s) = true) :
    (∀ l, seeLinesOf s = [l] →
      (parseDocstringCore (some s) true io idt).1 =
        some (String.mk (seeBodyOf s ++ '\n' :: ("See ".data ++ l)))) ∧
    (∀ l1 l2 ls, seeLinesOf s = l1 :: l2 :: ls →
      (parseDocstringCore (some s) true io idt).1 =
        some (String.mk (seeBodyOf s ++ seeBlockOf (l1 :: l2 :: ls)))) ∧
    (∀ l1 l2, seeBlockOf [l1, l2] =
      "\nSee:\n\n- ".data ++ l1 ++ "\n\n- ".data ++ l2 ++ "\n".data) := by
  refine ⟨?_, ?_, ?_⟩
  · intro l h
    rw [parse_cleanup_shape s io idt hs, seeTailOf, h]
    simp [joinNl, joinSepChar]
  · intro l1 l2 ls h
    rw [parse_cleanup_shape s io idt hs, seeTailOf, h]
    simp
  · intro l1 l2
    simp [seeBlockOf, joinNl, joinSepChar, seeHeaderLine]

/-- Witness for the `See:` re-flow claim: a docstring producing exactly one
cross-reference line yields the inline form, one producing two yields the
bulleted block. -/
theorem see_reflow_witness :
    pyTruthy (some exSeeOneDoc) = true ∧
    seeLinesOf exSeeOneDoc = [(":lua:obj:`A`:  stuff").data] ∧
    (parseDocstringCore (some exSeeOneDoc) true [] none).1 =
      some (String.mk (seeBodyOf exSeeOneDoc
        ++ '\n' :: ("See ".data ++ (":lua:obj:`A`:  stuff").data))) ∧
    seeLinesOf exSeeTwoDoc =
      [(":lua:obj:`A`").data, (":lua:obj:`B.C`:  doc2").data] ∧
    (parseDocstringCore (some exSeeTwoDoc) true [] none).1 =
      some (String.mk (seeBodyOf exSeeTwoDoc
        ++ seeBlockOf [(":lua:obj:`A`").data, (":lua:obj:`B.C`:  doc2").data])) :=
  ⟨rfl, by decide, (see_reflow exSeeOneDoc [] none rfl).1 _ (by decide),
    by decide, (see_reflow exSeeTwoDoc [] none rfl).2.1 _ _ _ (by decide)⟩

/-- Helper: the merged scalar fields carry the conjunction of the foreign
flags (the docstring-selection branches do not touch `is_foreign`). -/
theorem mergeData_is_foreign (a b : ObjData) :
    (mergeData a b).is_foreign = (a.is_foreign && b.is_foreign) := by
  rw [mergeData]
  split_ifs <;> rfl

/-- Helper: the merged record keeps the base's tag. -/
theorem mergeData_tag (a b : ObjData) : (mergeData a b).tag = a.tag := by
  rw [mergeData]
  split_ifs <;> rfl

/-- Helper: the merged visibility is the base's, falling back to the
other's (`a.visibility or b.visibility`). -/
theorem mergeData_visibility (a b : ObjData) :
    (mergeData a b).visibility = pyOrOpt a.visibility b.visibility := by
  rw [mergeData]
  split_ifs <;> rfl

/-- Helper: the two-element sort returns the input pair in one of its two
orders. -/
theorem sortPair_perm {a b w l : Object} (h : sortPair a b = some (w, l)) :
    (w = a ∧ l = b) ∨ (w = b ∧ l = a) := by
  rw [sortPair] at h
  cases ht : tupleLt (sortKey b) (sortKey a) with
  | none => rw [ht] at h; cases h
  | some t =>
    rw [ht] at h
    cases t with
    | true => cases h; right; exact ⟨rfl, rfl⟩
    | false => cases h; left; exact ⟨rfl, rfl⟩

/-- Helper: a successful merge applies the field updates of `mergeData` to
the sorted pair. -/
theorem mergeObjects_shape {fuel : Nat} {a b m : Object}
    (h : mergeObjects fuel a b = some m) :
    ∃ w l ch, sortPair a b = some (w, l) ∧
      m = Object.mk (mergeData w.objData l.objData) ch := by
  cases fuel with
  | zero => cases h
  | succ f =>
    rw [mergeObjects] at h
    split at h
    · cases h
    · next w l hsp =>
      cases f with
      | zero => cases h
      | succ f' =>
        rw [mergeSorted] at h
        split at h
        · cases h
        · next ch hch =>
          cases h
          exact ⟨w, l, ch, hsp, rfl⟩

/-- C2: the record returned by `merge_objects(a, b)` is foreign exactly
when both inputs are foreign, regardless of argument order. -/
theorem merge_foreign_conjunction (fuel : Nat) (a b m : Object)
    (h : mergeObjects fuel a b = some m) :
    m.objData.is_foreign = (a.objData.is_foreign && b.objData.is_foreign) := by
  obtain ⟨w, l, ch, hsp, rfl⟩ := mergeObjects_shape h
  rcases sortPair_perm hsp with ⟨rfl, rfl⟩ | ⟨rfl, rfl⟩
  · exact mergeData_is_foreign _ _
  · rw [Object.objData, mergeData_is_foreign, Bool.and_comm]

/-- Witness for the foreign-conjunction claim: merging a non-foreign and a
foreign record yields a non-foreign one. -/
theorem merge_foreign_conjunction_witness :
    mergeObjects 3 exNonForeign exForeign =
      some (mkObj .obj (some "bdoc") false none false (some .Public) (some 1) false [] []) ∧
    (mkObj .obj (some "bdoc") false none false (some .Public) (some 1) false [] []).objData.is_foreign
      = (exNonForeign.objData.is_foreign && exForeign.objData.is_foreign) :=
  ⟨rfl, merge_foreign_conjunction 3 exNonForeign exForeign _ rfl⟩

/-- Helper: the priority-and-line tail of the key comparison, reached when
the foreign components tie. -/
theorem tupleLt_codeSwap_tail (a b : Object) (t : Bool)
    (hbf : b.objData.is_foreign = a.objData.is_foreign)
    (h : (if -(tagPriority b.objData.tag) ≠ -(tagPriority a.objData.tag) then
        some (decide (-(tagPriority b.objData.tag) < -(tagPriority a.objData.tag)))
      else optLineLt b.objData.line a.objData.line) = some t) :
    t = codeSwap a b := by
  by_cases hp : tagPriority b.objData.tag = tagPriority a.objData.tag
  · rw [if_neg (by omega)] at h
    cases hlb : b.objData.line <;> cases hla : a.objData.line <;>
      rw [hlb, hla] at h <;> unfold optLineLt at h
    · cases h
      simp [codeSwap, hbf, lineLtB, hlb, hla, hp]
    · cases h
    · cases h
    · cases h
      simp [codeSwap, hbf, lineLtB, hlb, hla, hp]
  · rw [if_pos (by omega)] at h
    cases h
    have : (-(tagPriority b.objData.tag) < -(tagPriority a.objData.tag)) ↔
        (tagPriority a.objData.tag < tagPriority b.objData.tag) := by omega
    simp only [codeSwap, hbf, beq_self_eq_true, Bool.true_and, gt_iff_lt,
      decide_eq_decide.mpr this]
    have hne : (tagPriority b.objData.tag == tagPriority a.objData.tag) = false := by
      simp [hp]
    simp [hne]

/-- Helper: the Python key comparison, whenever it completes, decides
exactly the explicit lexicographic order `codeSwap`. -/
theorem tupleLt_codeSwap (a b : Object) (t : Bool)
    (h : tupleLt (sortKey b) (sortKey a) = some t) : t = codeSwap a b := by
  unfold tupleLt sortKey at h
  cases hfb : b.objData.is_foreign <;> cases hfa : a.objData.is_foreign <;>
    rw [hfb, hfa] at h <;> simp only [if_true, if_false] at h
  · exact tupleLt_codeSwap_tail a b t (by rw [hfb, hfa]) (by simpa using h)
  · rw [if_pos (by simp)] at h
    cases h
    simp [codeSwap, hfa, hfb]
  · rw [if_pos (by simp)] at h
    cases h
    simp [codeSwap, hfa, hfb]
  · exact tupleLt_codeSwap_tail a b t (by rw [hfb, hfa]) (by simpa using h)

/-- Helper: a successful sort of the pair puts `b` first exactly when
`codeSwap a b` holds, and `a` first otherwise. -/
theorem sortPair_codeSwap {a b w l : Object} (h : sortPair a b = some (w, l)) :
    (codeSwap a b = true ∧ w = b ∧ l = a) ∨
      (codeSwap a b = false ∧ w = a ∧ l = b) := by
  rw [sortPair] at h
  cases ht : tupleLt (sortKey b) (sortKey a) with
  | none => rw [ht] at h; cases h
  | some t =>
    rw [ht] at h
    have := tupleLt_codeSwap a b t ht
    cases t with
    | true => cases h; exact Or.inl ⟨this.symm, rfl, rfl⟩
    | false => cases h; exact Or.inr ⟨this.symm, rfl, rfl⟩

/-- C1 (amended): `merge_objects` orders the pair by foreign status
*descending* — the foreign record comes first, not the non-foreign one —
then priority descending (`Class`/`Function`/`Alias`/`Enum` above
`Data`/`Table` above generic `Object`), then source line ascending, and the
record coming first under this key is the base: the merged record keeps the
base's class (tag) and takes its scalar fields (here: visibility) with the
other record only as a fallback. -/
theorem merge_objects_ordering (fuel : Nat) (a b m : Object)
    (h : mergeObjects fuel a b = some m) :
    m.objData.tag = (if codeSwap a b then b else a).objData.tag ∧
    m.objData.visibility =
      pyOrOpt (if codeSwap a b then b else a).objData.visibility
        (if codeSwap a b then a else b).objData.visibility := by
  obtain ⟨w, l, ch, hsp, rfl⟩ := mergeObjects_shape h
  rcases sortPair_codeSwap hsp with ⟨hcs, rfl, rfl⟩ | ⟨hcs, rfl, rfl⟩ <;>
    rw [hcs] <;>
    exact ⟨mergeData_tag _ _, mergeData_visibility _ _⟩

/-- Counterexample to C1 as stated: merging a non-foreign `Private` record
with a foreign `Public` record of equal priority and line takes the
*foreign* record as the base (the merged visibility is `Public`), while the
claimed ordering — non-foreign first — would make the non-foreign record
the base (visibility `Private`); the spec-described merge and the
implemented merge disagree at this input. -/
theorem merge_objects_ordering_cex :
    (mergeObjects 3 exNonForeign exForeign).map (fun m => m.objData.visibility)
      = some (some .Public) ∧
    (specMergeObjects 3 exNonForeign exForeign).map (fun m => m.objData.visibility)
      = some (some .Private) ∧
    exNonForeign.objData.is_foreign = false ∧
    exForeign.objData.is_foreign = true := by
  refine ⟨rfl, rfl, rfl, rfl⟩

/-- Witness for the amended ordering claim at the same concrete pair. -/
theorem merge_objects_ordering_witness :
    codeSwap exNonForeign exForeign = true ∧
    mergeObjects 3 exNonForeign exForeign =
      some (mkObj .obj (some "bdoc") false none false (some .Public) (some 1) false [] []) ∧
    ((mkObj .obj (some "bdoc") false none false (some .Public) (some 1) false [] []).objData.tag
        = (if codeSwap exNonForeign exForeign then exForeign else exNonForeign).objData.tag ∧
      (mkObj .obj (some "bdoc") false none false (some .Public) (some 1) false [] []).objData.visibility
        = pyOrOpt
            (if codeSwap exNonForeign exForeign then exForeign else exNonForeign).objData.visibility
            (if codeSwap exNonForeign exForeign then exNonForeign else exForeign).objData.visibility) :=
  ⟨rfl, rfl, merge_objects_ordering 3 exNonForeign exForeign _ rfl⟩

/-- Helper: the children fuel bound is at least 1. -/
theorem chFuel_ge (l : List (String × Object)) : 1 ≤ chFuel l := by
  cases l with
  | nil => rw [chFuel]
  | cons p r => rw [chFuel]; omega

/-- Helper: the fuel bound of a record is at least 3. -/
theorem objFuel_ge (a : Object) : 3 ≤ objFuel a := by
  cases a with
  | mk d ch =>
    rw [objFuel]
    have := chFuel_ge ch
    omega

/-- Helper: a record sorts against itself without a swap (equal keys are
not strictly smaller, and equal line numbers — both `None` or both the same
`int` — compare without error). -/
theorem sortPair_self (a : Object) : sortPair a a = some (a, a) := by
  rw [sortPair, tupleLt]
  have h1 : ¬ (sortKey a).1 ≠ (sortKey a).1 := fun h => h rfl
  have h2 : ¬ (sortKey a).2.1 ≠ (sortKey a).2.1 := fun h => h rfl
  rw [if_neg h1, if_neg h2]
  cases hl : (sortKey a).2.2 with
  | none => rfl
  | some x => simp [optLineLt]

/-- Helper: under distinct keys, every pair of the list is found by lookup. -/
theorem lookup_self {ch : List (String × Object)} {n : String} {c : Object}
    (hnd : listNodup (ch.map Prod.fst) = true) (hm : (n, c) ∈ ch) :
    List.lookup n ch = some c := by
  induction ch with
  | nil => cases hm
  | cons p rest ih =>
    obtain ⟨pn, pc⟩ := p
    rw [List.map_cons, listNodup, Bool.and_eq_true] at hnd
    rcases List.mem_cons.mp hm with he | hm'
    · cases he
      simp [List.lookup]
    · have hne : n ≠ pn := by
        intro he
        subst he
        have hmem : n ∈ List.map Prod.fst rest := List.mem_map_of_mem Prod.fst hm'
        simp_all
      rw [List.lookup]
      simp only [beq_eq_false_iff_ne.mpr hne]
      exact ih hnd.2 hm'

/-- Helper: replacing one key's value leaves other keys' lookups unchanged. -/
theorem lookup_setChild_ne {ch : List (String × Object)} {n n' : String}
    {v : Object} (hne : n' ≠ n) :
    List.lookup n' (setChild ch n v) = List.lookup n' ch := by
  induction ch with
  | nil => rfl
  | cons p rest ih =>
    obtain ⟨pn, pc⟩ := p
    rw [setChild]
    by_cases he : pn = n
    · rw [if_pos he]
      subst he
      simp [List.lookup, beq_eq_false_iff_ne.mpr hne]
    · rw [if_neg he]
      by_cases he2 : n' = pn
      · subst he2
        simp [List.lookup]
      · simp only [List.lookup, beq_eq_false_iff_ne.mpr he2]
        exact ih

/-- Helper: replacing one key's value keeps the key list. -/
theorem setChild_keys (ch : List (String × Object)) (n : String) (v : Object) :
    (setChild ch n v).map Prod.fst = ch.map Prod.fst := by
  induction ch with
  | nil => rfl
  | cons p rest ih =>
    obtain ⟨pn, pc⟩ := p
    rw [setChild]
    by_cases he : pn = n
    · rw [if_pos he]
      simp
    · rw [if_neg he]
      simpa using ih

/-- Helper: adding only already-present elements to a Python set leaves it
unchanged. -/
theorem pyUnion_subset (l2 l1 : List String) (h : ∀ e ∈ l2, e ∈ l1) :
    pyUnion l1 l2 = l1 := by
  induction l2 with
  | nil => rfl
  | cons e rest ih =>
    rw [pyUnion, List.foldl_cons]
    have hc : l1.contains e = true := by
      simpa using h e (List.mem_cons_self _ _)
    rw [if_pos hc]
    exact ih (fun x hx => h x (List.mem_cons_of_mem _ hx))

/-- Helper: merged files of a record with itself are unchanged. -/
theorem mergeData_files (x y : ObjData) :
    (mergeData x y).files = pyUnion x.files y.files := by
  rw [mergeData]
  split_ifs <;> rfl

/-- Helper: the docstring of a self-merge is unchanged: either the record
has no (truthy) docstring and takes its own, or the strict-length test
fails on equal docstrings. -/
theorem mergeData_docstring_self (x : ObjData) :
    (mergeData x x).docstring = x.docstring := by
  rw [mergeData]
  split_ifs with h1 h2
  · rfl
  · exfalso
    simp only [Bool.and_eq_true, decide_eq_true_eq] at h2
    omega
  · rfl

/-- Helper: every child of a well-formed record is well-formed. -/
theorem chWF_mem {ch : List (String × Object)} {n : String} {c : Object}
    (h : chWF ch = true) (hm : (n, c) ∈ ch) : objWF c = true := by
  induction ch with
  | nil => cases hm
  | cons p rest ih =>
    obtain ⟨pn, pc⟩ := p
    rw [chWF, Bool.and_eq_true] at h
    rcases List.mem_cons.mp hm with he | hm'
    · cases he; exact h.1
    · exact ih h.2 hm'

/-- Helper: re-adding a list of children to a mapping that already binds
each of their (distinct) names to the very same child succeeds — every
collision is a self-merge — and leaves the key list unchanged. -/
theorem addChildren_self
    (pending : List (String × Object)) :
    ∀ (g F : Nat) (ach : List (String × Object)),
      chFuel pending ≤ g → g ≤ F →
      (∀ n c, (n, c) ∈ pending → List.lookup n ach = some c) →
      listNodup (pending.map Prod.fst) = true →
      (∀ n c, (n, c) ∈ pending → ∀ fu, objFuel c ≤ fu → fu < F →
        ∃ m, mergeObjects fu c c = some m) →
      ∃ res, addChildren g ach pending = some res ∧
        res.map Prod.fst = ach.map Prod.fst := by
  induction pending with
  | nil =>
    intro g F ach hg _ _ _ _
    rw [chFuel] at hg
    obtain ⟨g0, rfl⟩ : ∃ g0, g = g0 + 1 := ⟨g - 1, by omega⟩
    exact ⟨ach, rfl, rfl⟩
  | cons p rest ih =>
    obtain ⟨n, c⟩ := p
    intro g F ach hg hgF hlook hnd hmerge
    rw [chFuel] at hg
    obtain ⟨g', rfl⟩ : ∃ g', g = g' + 1 := ⟨g - 1, by omega⟩
    obtain ⟨g'', rfl⟩ : ∃ g'', g' = g'' + 1 := ⟨g' - 1, by omega⟩
    rw [List.map_cons, listNodup, Bool.and_eq_true] at hnd
    obtain ⟨m, hm⟩ := hmerge n c (List.mem_cons_self _ _) g''
      (by omega) (by omega)
    have hstep : addChild1 (g'' + 1) ach n c = some (setChild ach n m) := by
      rw [addChild1, hlook n c (List.mem_cons_self _ _)]
      dsimp only
      rw [hm]
      rfl
    rw [addChildren, hstep]
    have hrest : ∀ n' c', (n', c') ∈ rest →
        List.lookup n' (setChild ach n m) = some c' := by
      intro n' c' hm'
      have hne : n' ≠ n := by
        intro he
        subst he
        have : n' ∈ List.map Prod.fst rest := List.mem_map_of_mem Prod.fst hm'
        simp_all
      rw [lookup_setChild_ne hne]
      exact hlook n' c' (List.mem_cons_of_mem _ hm')
    obtain ⟨res, hres, hkeys⟩ := ih (g'' + 1) F (setChild ach n m)
      (by omega) (by omega) hrest hnd.2
      (fun n' c' hm' => hmerge n' c' (List.mem_cons_of_mem _ hm'))
    exact ⟨res, hres, hkeys.trans (setChild_keys ach n m)⟩

/-- C7: merging a record with a structurally identical copy of itself
(given the Python dict invariant of distinct child names and enough fuel
for the recursion) succeeds and yields a record with the same file set, the
same docstring and the same child-name list. -/
theorem merge_idempotent : ∀ (fuel : Nat) (a : Object),
    objWF a = true → objFuel a ≤ fuel →
    ∃ m, mergeObjects fuel a a = some m ∧
      m.objData.files = a.objData.files ∧
      m.objData.docstring = a.objData.docstring ∧
      m.children.map Prod.fst = a.children.map Prod.fst := by
  intro fuel
  induction fuel using Nat.strong_induction_on with
  | _ fuel ih =>
    intro a hwf hfa
    have h3 := objFuel_ge a
    obtain ⟨f', rfl⟩ : ∃ f', fuel = f' + 2 := ⟨fuel - 2, by omega⟩
    rw [mergeObjects, sortPair_self a]
    dsimp only
    obtain ⟨d, ch⟩ := a
    rw [mergeSorted]
    simp only [Object.children, Object.objData]
    have hch : chFuel ch ≤ f' := by
      rw [objFuel] at hfa
      omega
    rw [objWF, Bool.and_eq_true] at hwf
    obtain ⟨res, hres, hkeys⟩ := addChildren_self ch f' (f' + 2)
      ch hch (by omega)
      (fun n c hm => lookup_self hwf.1 hm) hwf.1
      (fun n c hm fu hfu hlt => by
        obtain ⟨m, hm', _⟩ := ih fu hlt c (chWF_mem hwf.2 hm) hfu
        exact ⟨m, hm'⟩)
    rw [hres]
    dsimp only
    refine ⟨_, rfl, ?_, ?_, ?_⟩
    · simp only [Object.objData]
      rw [mergeData_files]
      exact pyUnion_subset _ _ (fun e he => he)
    · simp only [Object.objData]
      exact mergeData_docstring_self d
    · simp only [Object.children]
      exact hkeys

/-- Witness for the idempotence claim at a concrete two-child record. -/
theorem merge_idempotent_witness :
    objWF exSelf = true ∧ objFuel exSelf ≤ 8 ∧
    ∃ m, mergeObjects 8 exSelf exSelf = some m ∧
      m.objData.files = exSelf.objData.files ∧
      m.objData.docstring = exSelf.objData.docstring ∧
      m.children.map Prod.fst = exSelf.children.map Prod.fst :=
  ⟨rfl, by decide, merge_idempotent 8 exSelf rfl (by decide)⟩

set_option maxHeartbeats 4000000 in
set_option synthInstance.maxHeartbeats 2000000 in
set_option maxRecDepth 4000 in
/-- C3 (amended): a symbol is included exactly when it is not in the
explicit exclude-list (the exclude-list always wins), and it matches the
explicit include-list, OR it is a top-level global (top-level symbols
bypass every category gate), OR it passes every category gate —
undocumented, private, protected, package, double-underscore and inherited
symbols each need their `*-members` flag, and a symbol in none of these
categories needs the plain `members` flag.  (The claim as stated instead
requires non-top-level status together with the gates on the non-include
path; the code includes every non-excluded top-level symbol.) -/
theorem iter_children_filter (opts : MemberOpts) (inh : List String)
    (name : String) (child : Object) :
    includedChild opts inh name child = true ↔
      ((excludeListOf opts).contains name = false ∧
        ((includeSetOf opts).contains name = true ∨
          child.objData.is_toplevel = true ∨
          ((((!pyTruthy child.parsedDocstring) = true →
              optvIsTrue opts.undoc_members = true) ∧
            (((child.objData.visibility == some Visibility.Private)
                || (List.lookup "private" child.parsedOptions).isSome) = true →
              optvIsTrue opts.private_members = true) ∧
            (((child.objData.visibility == some Visibility.Protected)
                || (List.lookup "protected" child.parsedOptions).isSome) = true →
              optvIsTrue opts.protected_members = true) ∧
            (((child.objData.visibility == some Visibility.Package)
                || (List.lookup "package" child.parsedOptions).isSome) = true →
              optvIsTrue opts.package_members = true) ∧
            (name.startsWith "__" = true →
              optvIsTrue opts.special_members = true) ∧
            (inh.contains name = true →
              optvIsTrue opts.inherited_members = true) ∧
            ((!pyTruthy child.parsedDocstring) = false →
              ((child.objData.visibility == some Visibility.Private)
                || (List.lookup "private" child.parsedOptions).isSome) = false →
              ((child.objData.visibility == some Visibility.Protected)
                || (List.lookup "protected" child.parsedOptions).isSome) = false →
              ((child.objData.visibility == some Visibility.Package)
                || (List.lookup "package" child.parsedOptions).isSome) = false →
              name.startsWith "__" = false →
              inh.contains name = false →
              optvIsTrue opts.members = true))))) := by
  simp only [includedChild]
  generalize (excludeListOf opts).contains name = be
  generalize (includeSetOf opts).contains name = bi
  generalize child.objData.is_toplevel = bt
  generalize (!pyTruthy child.parsedDocstring) = bu
  generalize ((child.objData.visibility == some Visibility.Private)
    || (List.lookup "private" child.parsedOptions).isSome) = bpr
  generalize ((child.objData.visibility == some Visibility.Protected)
    || (List.lookup "protected" child.parsedOptions).isSome) = bpo
  generalize ((child.objData.visibility == some Visibility.Package)
    || (List.lookup "package" child.parsedOptions).isSome) = bpk
  generalize name.startsWith "__" = bsp
  generalize inh.contains name = bin
  generalize optvIsTrue opts.undoc_members = fu
  generalize optvIsTrue opts.private_members = fpr
  generalize optvIsTrue opts.protected_members = fpo
  generalize optvIsTrue opts.package_members = fpk
  generalize optvIsTrue opts.special_members = fsp
  generalize optvIsTrue opts.inherited_members = fin
  generalize optvIsTrue opts.members = fm
  split_ifs with h1 h2 h3 h4 h5 h6 h7 h8 h9 <;>
    first
      | (simp_all <;> tauto)
      | (cases bi <;> simp_all)

/-- Counterexample to C3 as stated: an undocumented top-level symbol with
no options set is included by the code (top-level symbols bypass the
category gates), while the claimed rule — include-list OR (not top-level
AND all gates) — excludes it. -/
theorem iter_children_filter_cex :
    includedChild noMemberOpts [] "g" exToplevel = true ∧
    claimIncludedChild noMemberOpts [] "g" exToplevel = false ∧
    exToplevel.objData.is_toplevel = true ∧
    pyTruthy exToplevel.parsedDocstring = false :=
  ⟨rfl, rfl, rfl, rfl⟩

/-- Helper: list lookup only returns listed pairs. -/
theorem lookup_mem {α : Type} [BEq α] [LawfulBEq α] {β : Type} {l : List (α × β)}
    {k : α} {v : β} (h : List.lookup k l = some v) : (k, v) ∈ l := by
  induction l with
  | nil => cases h
  | cons p rest ih =>
    obtain ⟨pk, pv⟩ := p
    rw [List.lookup] at h
    cases hk : k == pk with
    | true =>
      rw [hk] at h
      cases h
      have : k = pk := by simpa using hk
      subst this
      exact List.mem_cons_self _ _
    | false =>
      rw [hk] at h
      exact List.mem_cons_of_mem _ (ih h)

/-- Helper: subtrees found along a children mapping are subobjects. -/
theorem mem_chSubobjs_of_child {ch : List (String × Object)} {n : String}
    {c x : Object} (hm : (n, c) ∈ ch) (hx : x ∈ objSubobjs c) :
    x ∈ chSubobjs ch := by
  induction ch with
  | nil => cases hm
  | cons p rest ih =>
    rw [chSubobjs]
    rcases List.mem_cons.mp hm with he | hm'
    · subst he
      exact List.mem_append_left _ hx
    · exact List.mem_append_right _ (ih hm')

/-- Helper: every record reached by `find` along some component list is a
subobject of the tree. -/
theorem findComponents_mem {t o : Object} : ∀ {comps : List String},
    findComponents t comps = some o → o ∈ objSubobjs t := by
  intro comps
  induction comps generalizing t with
  | nil =>
    intro h
    rw [findComponents] at h
    cases h
    obtain ⟨d, ch⟩ := o
    rw [objSubobjs]
    exact List.mem_cons_self _ _
  | cons n rest ih =>
    intro h
    rw [findComponents] at h
    cases hl : List.lookup n t.children with
    | none => rw [hl] at h; cases h
    | some c =>
      rw [hl] at h
      obtain ⟨d, ch⟩ := t
      rw [objSubobjs]
      exact List.mem_cons_of_mem _
        (mem_chSubobjs_of_child (lookup_mem hl) (ih h))

/-- Helper: the bases of any subobject are listed in `allBaseNames`. -/
theorem bases_mem_allBaseNames {t o : Object} (ho : o ∈ objSubobjs t) :
    ∀ {n : String}, n ∈ o.objData.bases → n ∈ allBaseNames t := by
  intro n hn
  rw [allBaseNames]
  exact List.mem_flatMap.mpr ⟨o, ho, hn⟩

/-- Helper: one list's length bounds the flattened map's length from below
at each member. -/
theorem length_le_flatMap {α β : Type} (f : α → List β) :
    ∀ {l : List α} {x : α}, x ∈ l → (f x).length ≤ (l.flatMap f).length := by
  intro l
  induction l with
  | nil => intro x h; cases h
  | cons y rest ih =>
    intro x h
    rw [List.flatMap_cons, List.length_append]
    rcases List.mem_cons.mp h with he | hm
    · subst he; omega
    · have := ih hm; omega

/-- Helper: the bases list of any subobject is no longer than
`allBaseNames`. -/
theorem bases_length_le {t o : Object} (ho : o ∈ objSubobjs t) :
    o.objData.bases.length ≤ (allBaseNames t).length := by
  rw [allBaseNames]
  exact length_le_flatMap (fun o => o.objData.bases) ho

/-- Helper: structural equality of records is reflexive. -/
theorem objBEq_refl : ∀ (n : Nat) (a : Object), sizeOf a ≤ n → objBEq a a = true := by
  intro n
  induction n with
  | zero =>
    intro a h
    cases a with
    | mk d c => simp [Object.mk.sizeOf_spec] at h
  | succ n ih =>
    intro a h
    cases a with
    | mk d c =>
      rw [objBEq]
      simp only [beq_self_eq_true, Bool.true_and]
      have key : ∀ l : List (String × Object),
          (∀ p ∈ l, sizeOf (Prod.snd p) ≤ n) → chBEq l l = true := by
        intro l
        induction l with
        | nil => intro _; rw [chBEq]
        | cons p r ihr =>
          intro hl
          obtain ⟨nm, o⟩ := p
          rw [chBEq]
          simp only [beq_self_eq_true, Bool.true_and, Bool.and_eq_true]
          exact ⟨ih o (hl (nm, o) (List.mem_cons_self _ _)),
            ihr (fun q hq => hl q (List.mem_cons_of_mem _ hq))⟩
      apply key
      intro p hp
      have h1 : sizeOf p < sizeOf c := List.sizeOf_lt_of_mem hp
      have h2 : sizeOf p.2 < sizeOf p := by
        obtain ⟨x, y⟩ := p
        simp [Prod.mk.sizeOf_spec]
      simp only [Object.mk.sizeOf_spec] at h
      omega

/-- Helper: with fuel exceeding the measure
`|S \ seen| * (L + 1) + |stack|` — where `S` is the finite superset of
pushable names and `L` bounds each push — the worklist loop of
`find_all_bases` never exhausts its fuel: every unseen name processed
shrinks `S \ seen`, every seen name shrinks the stack. -/
theorem fab_go_succeeds (tree obj : Object) :
    ∀ (fuel : Nat) (stack : List String) (seen : Finset String) (acc : List Object),
      (∀ n ∈ stack, n ∈ baseNameSet tree obj) →
      (baseNameSet tree obj \ seen).card * ((allBaseNames tree).length + 1)
          + stack.length < fuel →
      ∃ res, findAllBasesGo tree obj fuel stack seen acc = some res := by
  intro fuel
  induction fuel with
  | zero => intro stack seen acc _ hm; omega
  | succ f ih =>
    intro stack seen acc hstack hm
    cases stack with
    | nil => exact ⟨acc, rfl⟩
    | cons name rest =>
      by_cases hseen : name ∈ seen
      · rw [findAllBasesGo, if_pos hseen]
        refine ih rest seen acc (fun n hn => hstack n (List.mem_cons_of_mem _ hn)) ?_
        simp only [List.length_cons] at hm
        omega
      · rw [findAllBasesGo, if_neg hseen]
        have hnS : name ∈ baseNameSet tree obj := hstack name (List.mem_cons_self _ _)
        have hsd : baseNameSet tree obj \ insert name seen =
            (baseNameSet tree obj \ seen).erase name := by
          ext x
          simp only [Finset.mem_sdiff, Finset.mem_insert, Finset.mem_erase]
          tauto
        have hcard : (baseNameSet tree obj \ insert name seen).card + 1 ≤
            (baseNameSet tree obj \ seen).card := by
          rw [hsd]
          exact Finset.card_erase_lt_of_mem (Finset.mem_sdiff.mpr ⟨hnS, hseen⟩)
        have hmul : (baseNameSet tree obj \ insert name seen).card
              * ((allBaseNames tree).length + 1) + ((allBaseNames tree).length + 1) ≤
            (baseNameSet tree obj \ seen).card * ((allBaseNames tree).length + 1) := by
          have := Nat.mul_le_mul_right ((allBaseNames tree).length + 1) hcard
          calc (baseNameSet tree obj \ insert name seen).card
                * ((allBaseNames tree).length + 1) + ((allBaseNames tree).length + 1)
              = ((baseNameSet tree obj \ insert name seen).card + 1)
                * ((allBaseNames tree).length + 1) := by ring
            _ ≤ _ := this
        simp only [List.length_cons] at hm
        cases hf : Object.find tree name with
        | none =>
          refine ih rest (insert name seen) acc
            (fun n hn => hstack n (List.mem_cons_of_mem _ hn)) ?_
          omega
        | some base =>
          dsimp only
          by_cases hbeq : objBEq base obj
          · rw [if_pos hbeq]
            refine ih rest (insert name seen) acc
              (fun n hn => hstack n (List.mem_cons_of_mem _ hn)) ?_
            omega
          · rw [if_neg hbeq]
            have hbm : base ∈ objSubobjs tree := findComponents_mem hf
            by_cases htag : base.objData.tag = Tag.cls
            · rw [if_pos htag]
              have hlen : base.objData.bases.length ≤ (allBaseNames tree).length :=
                bases_length_le hbm
              refine ih (base.objData.bases.reverse ++ rest) (insert name seen) _ ?_ ?_
              · intro n hn
                rcases List.mem_append.mp hn with hn1 | hn2
                · rw [List.mem_reverse] at hn1
                  rw [baseNameSet, List.mem_toFinset]
                  exact List.mem_append_left _ (bases_mem_allBaseNames hbm hn1)
                · exact hstack n (List.mem_cons_of_mem _ hn2)
              · rw [List.length_append, List.length_reverse]
                omega
            · rw [if_neg htag]
              refine ih rest (insert name seen) _
                (fun n hn => hstack n (List.mem_cons_of_mem _ hn)) ?_
              omega

/-- Helper: the loop only ever appends bases that fail the identity check
against the queried object. -/
theorem fab_go_no_self (tree obj : Object) :
    ∀ (fuel : Nat) (stack : List String) (seen : Finset String)
      (acc res : List Object),
      (∀ x ∈ acc, objBEq x obj = false) →
      findAllBasesGo tree obj fuel stack seen acc = some res →
      ∀ x ∈ res, objBEq x obj = false := by
  intro fuel
  induction fuel with
  | zero => intro stack seen acc res _ h; cases h
  | succ f ih =>
    intro stack seen acc res hacc h
    cases stack with
    | nil =>
      rw [findAllBasesGo] at h
      cases h
      exact hacc
    | cons name rest =>
      rw [findAllBasesGo] at h
      by_cases hseen : name ∈ seen
      · rw [if_pos hseen] at h
        exact ih _ _ _ _ hacc h
      · rw [if_neg hseen] at h
        cases hf : Object.find tree name with
        | none =>
          rw [hf] at h
          exact ih _ _ _ _ hacc h
        | some base =>
          rw [hf] at h
          dsimp only at h
          by_cases hbeq : objBEq base obj
          · rw [if_pos hbeq] at h
            exact ih _ _ _ _ hacc h
          · rw [if_neg hbeq] at h
            have hacc' : ∀ x ∈ acc ++ [base], objBEq x obj = false := by
              intro x hx
              rcases List.mem_append.mp hx with hx1 | hx2
              · exact hacc x hx1
              · rw [List.mem_singleton] at hx2
                subst hx2
                simpa using hbeq
            by_cases htag : base.objData.tag = Tag.cls
            · rw [if_pos htag] at h
              exact ih _ _ _ _ hacc' h
            · rw [if_neg htag] at h
              exact ih _ _ _ _ hacc' h

/-- C9: on every object tree — including base-name cycles —
`find_all_bases` terminates (the canonical fuel always suffices, each base
name being processed at most once through the `seen` set) and the returned
base list never contains the queried object itself; on the concrete
two-class cycle (`A` based on `B`, `B` based on `A`) the query for `A`
returns exactly `B`. -/
theorem find_all_bases_safety :
    (∀ tree obj : Object, ∃ res, Object.findAllBases tree obj = some res ∧
      obj ∉ res) ∧
    Object.findAllBases exCycleTree exCycleA = some [exCycleB] := by
  constructor
  · intro tree obj
    obtain ⟨res, hres⟩ := fab_go_succeeds tree obj (fabFuel tree obj)
      obj.objData.bases.reverse ∅ []
      (fun n hn => by
        rw [List.mem_reverse] at hn
        rw [baseNameSet, List.mem_toFinset]
        exact List.mem_append_right _ hn)
      (by
        rw [fabFuel, List.length_reverse, Finset.sdiff_empty]
        omega)
    refine ⟨res, hres, fun hmem => ?_⟩
    have hfalse := fab_go_no_self tree obj _ _ _ _ _ (by simp) hres obj hmem
    have htrue := objBEq_refl (sizeOf obj) obj le_rfl
    rw [htrue] at hfalse
    cases hfalse
  · rfl
